import Mathlib

/-!
# Verification of the MARKET.js order-lifecycle core

Shallow embedding of the order-lifecycle core of the MARKET.js client library:

* the trade validation pipeline (`src/contract_wrappers/ContractWrapper.ts`,
  `ContractWrapper.tradeOrderAsync`),
* the collateral calculator (`Utils.calculateNeededCollateral`, modelled from
  the specification since `src/lib/Utils.ts` is not part of the sources),
* the transaction-outcome resolver (`src/lib/OrderTransactionInfo.ts` and the
  `OrderInfo` class of `src/lib/Order.ts`),
* the contract-binding cache
  (`ContractWrapper._getContractSetByMarketContractAddressAsync`),
* the expiration scheduler (modelled from the specification; only its test
  suite is part of the sources).

`BigNumber` values are embedded as `Int`, addresses and transaction hashes
as `String`.
-/

namespace MarketJs

/-- The closed error taxonomy of `MarketError` (`src/types`), as enumerated in
the specification §3. -/
inductive MarketError where
  | orderExpired
  | orderDead
  | unknownOrderError
  | contractAlreadySettled
  | invalidTaker
  | orderFilledOrCancelled
  | buySellMismatch
  | invalidSignature
  | userNotEnabledForContract
  | insufficientBalanceForTransfer
  | insufficientAllowanceForTransfer
  | insufficientCollateralBalance
  | userHasNoAssociatedPositions
  deriving DecidableEq, Repr

/-- `constants.NULL_ADDRESS`: the all-zero Ethereum address, used as the
wildcard ("any taker") sentinel. -/
def NULL_ADDRESS : String := "0x0000000000000000000000000000000000000000"

/-- `bignumber.js` `isPositive()`: true when the sign of the number is `+`;
zero is positive (there is no negative zero in `Int`). -/
def bnIsPositive (x : Int) : Bool := decide (0 ≤ x)

/-- A `SignedOrder` (`@marketprotocol/types`): the order fields read by the
trade pipeline.  The elliptic-curve signature itself is not embedded; the
outcome of the remote `isValidSignature` call is part of the environment. -/
structure SignedOrder where
  contractAddress : String
  maker : String
  taker : String
  feeRecipient : String
  makerFee : Int
  takerFee : Int
  orderQty : Int
  price : Int
  expirationTimestamp : Int
  salt : Int
  remainingQty : Int
  deriving DecidableEq, Repr

/-- The remote state read by `tradeOrderAsync`: contract flags, the signature
verdict of the on-chain `OrderLib`, MARKET-token enablement, fee-token
balances and allowances, collateral-pool balances, the contract's price
bounds and multiplier, and the current clock
(`Utils.getCurrentUnixTimestampSec`). -/
structure MarketEnv where
  isSettled : Bool
  validSignature : Bool
  isUserEnabled : String → Bool
  mktBalanceOf : String → Int
  mktAllowance : String → String → Int
  collateralBalanceOf : String → Int
  priceFloor : Int
  priceCap : Int
  qtyMultiplier : Int
  now : Int

/-- Modelled from the spec: `Utils.calculateNeededCollateral` (the file
`src/lib/Utils.ts` is not among the sources; only its callers are).  Per
specification §4.2, the collateral required for a position of signed
`qty` executed at `price` is
`qtyMultiplier × |qty| × (qty > 0 ? (price − priceFloor) : (priceCap − price))`. -/
def calculateNeededCollateral (priceFloor priceCap qtyMultiplier qty price : Int) : Int :=
  qtyMultiplier * |qty| * (if 0 < qty then price - priceFloor else priceCap - price)

/-- Collateral the maker must hold for a fill, as computed inside
`tradeOrderAsync`: sized with the fill quantity itself. -/
def neededCollateralMaker (env : MarketEnv) (o : SignedOrder) (fillQty : Int) : Int :=
  calculateNeededCollateral env.priceFloor env.priceCap env.qtyMultiplier fillQty o.price

/-- Collateral the taker must hold for a fill, as computed inside
`tradeOrderAsync`: sized with `fillQty.times(-1)`, the opposite direction of
the order sign. -/
def neededCollateralTaker (env : MarketEnv) (o : SignedOrder) (fillQty : Int) : Int :=
  calculateNeededCollateral env.priceFloor env.priceCap env.qtyMultiplier (-fillQty) o.price

/-- The observable steps of one `tradeOrderAsync` invocation: remote reads
and submissions, and the local validation checks, in source order. -/
inductive TradeStep where
  | fetchContractSet
  | readIsSettled
  | checkSettled
  | checkTaker
  | checkExpiration
  | checkRemainingQty
  | checkBuySell
  | computeHashAndSignature
  | checkSignature
  | readEnablement
  | checkEnabled
  | readMakerMktBalance
  | checkMakerFeeBalance
  | readMakerAllowance
  | checkMakerFeeAllowance
  | readTakerMktBalance
  | checkTakerFeeBalance
  | readTakerAllowance
  | checkTakerFeeAllowance
  | readCollateralBalances
  | readBoundsAndCalcCollateral
  | checkMakerCollateral
  | checkTakerCollateral
  | submitTrade
  deriving DecidableEq, Repr

/-- Which trade steps are validation checks (as opposed to remote reads or
the final submission). -/
def TradeStep.isCheck : TradeStep → Bool
  | .checkSettled | .checkTaker | .checkExpiration | .checkRemainingQty
  | .checkBuySell | .checkSignature | .checkEnabled
  | .checkMakerFeeBalance | .checkMakerFeeAllowance
  | .checkTakerFeeBalance | .checkTakerFeeAllowance
  | .checkMakerCollateral | .checkTakerCollateral => true
  | _ => false

/-- Which trade steps are remote calls. -/
def TradeStep.isRemote : TradeStep → Bool
  | .fetchContractSet | .readIsSettled | .computeHashAndSignature
  | .readEnablement | .readMakerMktBalance | .readMakerAllowance
  | .readTakerMktBalance | .readTakerAllowance | .readCollateralBalances
  | .readBoundsAndCalcCollateral | .submitTrade => true
  | _ => false

/-- What a successful `tradeOrderAsync` submits to
`marketContract.tradeOrderTx`. -/
structure TradeSubmission where
  order : SignedOrder
  fillQty : Int
  deriving DecidableEq, Repr

/-- The sender used as taker: `txParams.from ? txParams.from :
constants.NULL_ADDRESS`. -/
def takerOf (txFrom : Option String) : String := txFrom.getD NULL_ADDRESS

/-- `ContractWrapper.tradeOrderAsync`
(`src/contract_wrappers/ContractWrapper.ts`, lines 110–264; the
`MarketContractWrapper.tradeOrderAsync` variant among the unnamed sources
performs the same sequence), transcribed with an explicit trace of the
steps it performs.  Each rejection returns the steps executed so far
together with the `MarketError` of the first failing check. -/
def tradeOrderRun (env : MarketEnv) (o : SignedOrder) (fillQty : Int)
    (txFrom : Option String) : List TradeStep × Except MarketError TradeSubmission :=
  if env.isSettled then
    ([.fetchContractSet, .readIsSettled, .checkSettled],
     .error .contractAlreadySettled)
  else
    let taker := takerOf txFrom
    if o.taker != NULL_ADDRESS && o.taker != taker then
      ([.fetchContractSet, .readIsSettled, .checkSettled, .checkTaker],
       .error .invalidTaker)
    else if decide (o.expirationTimestamp < env.now) then
      ([.fetchContractSet, .readIsSettled, .checkSettled, .checkTaker,
        .checkExpiration],
       .error .orderExpired)
    else if o.remainingQty == 0 then
      ([.fetchContractSet, .readIsSettled, .checkSettled, .checkTaker,
        .checkExpiration, .checkRemainingQty],
       .error .orderFilledOrCancelled)
    else if bnIsPositive o.orderQty != bnIsPositive fillQty then
      ([.fetchContractSet, .readIsSettled, .checkSettled, .checkTaker,
        .checkExpiration, .checkRemainingQty, .checkBuySell],
       .error .buySellMismatch)
    else if !env.validSignature then
      ([.fetchContractSet, .readIsSettled, .checkSettled, .checkTaker,
        .checkExpiration, .checkRemainingQty, .checkBuySell,
        .computeHashAndSignature, .checkSignature],
       .error .invalidSignature)
    else if !env.isUserEnabled o.maker || !env.isUserEnabled taker then
      ([.fetchContractSet, .readIsSettled, .checkSettled, .checkTaker,
        .checkExpiration, .checkRemainingQty, .checkBuySell,
        .computeHashAndSignature, .checkSignature, .readEnablement,
        .checkEnabled],
       .error .userNotEnabledForContract)
    else if decide (env.mktBalanceOf o.maker < o.makerFee) then
      ([.fetchContractSet, .readIsSettled, .checkSettled, .checkTaker,
        .checkExpiration, .checkRemainingQty, .checkBuySell,
        .computeHashAndSignature, .checkSignature, .readEnablement,
        .checkEnabled, .readMakerMktBalance, .checkMakerFeeBalance],
       .error .insufficientBalanceForTransfer)
    else if decide (env.mktAllowance o.maker o.feeRecipient < o.makerFee) then
      ([.fetchContractSet, .readIsSettled, .checkSettled, .checkTaker,
        .checkExpiration, .checkRemainingQty, .checkBuySell,
        .computeHashAndSignature, .checkSignature, .readEnablement,
        .checkEnabled, .readMakerMktBalance, .checkMakerFeeBalance,
        .readMakerAllowance, .checkMakerFeeAllowance],
       .error .insufficientAllowanceForTransfer)
    else if decide (env.mktBalanceOf taker < o.takerFee) then
      ([.fetchContractSet, .readIsSettled, .checkSettled, .checkTaker,
        .checkExpiration, .checkRemainingQty, .checkBuySell,
        .computeHashAndSignature, .checkSignature, .readEnablement,
        .checkEnabled, .readMakerMktBalance, .checkMakerFeeBalance,
        .readMakerAllowance, .checkMakerFeeAllowance,
        .readTakerMktBalance, .checkTakerFeeBalance],
       .error .insufficientBalanceForTransfer)
    else if decide (env.mktAllowance taker o.feeRecipient < o.takerFee) then
      ([.fetchContractSet, .readIsSettled, .checkSettled, .checkTaker,
        .checkExpiration, .checkRemainingQty, .checkBuySell,
        .computeHashAndSignature, .checkSignature, .readEnablement,
        .checkEnabled, .readMakerMktBalance, .checkMakerFeeBalance,
        .readMakerAllowance, .checkMakerFeeAllowance,
        .readTakerMktBalance, .checkTakerFeeBalance,
        .readTakerAllowance, .checkTakerFeeAllowance],
       .error .insufficientAllowanceForTransfer)
    else if decide (env.collateralBalanceOf o.maker < neededCollateralMaker env o fillQty) then
      ([.fetchContractSet, .readIsSettled, .checkSettled, .checkTaker,
        .checkExpiration, .checkRemainingQty, .checkBuySell,
        .computeHashAndSignature, .checkSignature, .readEnablement,
        .checkEnabled, .readMakerMktBalance, .checkMakerFeeBalance,
        .readMakerAllowance, .checkMakerFeeAllowance,
        .readTakerMktBalance, .checkTakerFeeBalance,
        .readTakerAllowance, .checkTakerFeeAllowance,
        .readCollateralBalances, .readBoundsAndCalcCollateral,
        .checkMakerCollateral],
       .error .insufficientCollateralBalance)
    else if decide (env.collateralBalanceOf taker < neededCollateralTaker env o fillQty) then
      ([.fetchContractSet, .readIsSettled, .checkSettled, .checkTaker,
        .checkExpiration, .checkRemainingQty, .checkBuySell,
        .computeHashAndSignature, .checkSignature, .readEnablement,
        .checkEnabled, .readMakerMktBalance, .checkMakerFeeBalance,
        .readMakerAllowance, .checkMakerFeeAllowance,
        .readTakerMktBalance, .checkTakerFeeBalance,
        .readTakerAllowance, .checkTakerFeeAllowance,
        .readCollateralBalances, .readBoundsAndCalcCollateral,
        .checkMakerCollateral, .checkTakerCollateral],
       .error .insufficientCollateralBalance)
    else
      ([.fetchContractSet, .readIsSettled, .checkSettled, .checkTaker,
        .checkExpiration, .checkRemainingQty, .checkBuySell,
        .computeHashAndSignature, .checkSignature, .readEnablement,
        .checkEnabled, .readMakerMktBalance, .checkMakerFeeBalance,
        .readMakerAllowance, .checkMakerFeeAllowance,
        .readTakerMktBalance, .checkTakerFeeBalance,
        .readTakerAllowance, .checkTakerFeeAllowance,
        .readCollateralBalances, .readBoundsAndCalcCollateral,
        .checkMakerCollateral, .checkTakerCollateral, .submitTrade],
       .ok ⟨o, fillQty⟩)

/-- The ordered checklist of the specification's validation pipeline
(§4.5): each entry is the pass-condition of one check together with the
`MarketError` it rejects with, in the order the specification lists
them. -/
def tradeChecks (env : MarketEnv) (o : SignedOrder) (fillQty : Int)
    (txFrom : Option String) : List (Bool × MarketError) :=
  let taker := takerOf txFrom
  [ (!env.isSettled, .contractAlreadySettled),
    (!(o.taker != NULL_ADDRESS && o.taker != taker), .invalidTaker),
    (!decide (o.expirationTimestamp < env.now), .orderExpired),
    (!(o.remainingQty == 0), .orderFilledOrCancelled),
    (!(bnIsPositive o.orderQty != bnIsPositive fillQty), .buySellMismatch),
    (env.validSignature, .invalidSignature),
    (env.isUserEnabled o.maker && env.isUserEnabled taker, .userNotEnabledForContract),
    (!decide (env.mktBalanceOf o.maker < o.makerFee), .insufficientBalanceForTransfer),
    (!decide (env.mktAllowance o.maker o.feeRecipient < o.makerFee),
      .insufficientAllowanceForTransfer),
    (!decide (env.mktBalanceOf taker < o.takerFee), .insufficientBalanceForTransfer),
    (!decide (env.mktAllowance taker o.feeRecipient < o.takerFee),
      .insufficientAllowanceForTransfer),
    (!decide (env.collateralBalanceOf o.maker < neededCollateralMaker env o fillQty),
      .insufficientCollateralBalance),
    (!decide (env.collateralBalanceOf taker < neededCollateralTaker env o fillQty),
      .insufficientCollateralBalance) ]

/-- The validation-check steps in pipeline order. -/
def checkStepOrder : List TradeStep :=
  [.checkSettled, .checkTaker, .checkExpiration, .checkRemainingQty,
   .checkBuySell, .checkSignature, .checkEnabled,
   .checkMakerFeeBalance, .checkMakerFeeAllowance,
   .checkTakerFeeBalance, .checkTakerFeeAllowance,
   .checkMakerCollateral, .checkTakerCollateral]

/-- The error of the first failing check of an ordered checklist, if any. -/
def firstFailure : List (Bool × MarketError) → Option MarketError
  | [] => none
  | (ok, e) :: rest => if ok then firstFailure rest else some e

/-- The checks a fail-fast pipeline evaluates: every passing check up to and
including the first failing one. -/
def evaluatedChecks : List (Bool × MarketError) → List TradeStep → List TradeStep
  | (ok, _) :: cs, s :: ss => if ok then s :: evaluatedChecks cs ss else [s]
  | _, _ => []

/-- A concrete environment for the end-to-end scenario of specification §8:
price floor `0`, cap `200000`, multiplier `1`, no contract settlement, valid
signature, everyone enabled, ample collateral, zero fee balances (the fees
are zero), clock at `1000`. -/
def cEnv : MarketEnv where
  isSettled := false
  validSignature := true
  isUserEnabled := fun _ => true
  mktBalanceOf := fun _ => 0
  mktAllowance := fun _ _ => 0
  collateralBalanceOf := fun _ => 1000000
  priceFloor := 0
  priceCap := 200000
  qtyMultiplier := 1
  now := 1000

/-- A concrete wildcard-taker order: quantity `10` at price `100000`, zero
fees, expiring exactly at the environment's current instant (`1000`). -/
def cOrder : SignedOrder where
  contractAddress := "0xcontract"
  maker := "0xmaker"
  taker := NULL_ADDRESS
  feeRecipient := "0xfeerecipient"
  makerFee := 0
  takerFee := 0
  orderQty := 10
  price := 100000
  expirationTimestamp := 1000
  salt := 1
  remainingQty := 10

/-- `cOrder` with nothing left to fill and a later expiration. -/
def cOrderFilled : SignedOrder :=
  { cOrder with remainingQty := 0, expirationTimestamp := 2000 }

/-- A concrete taker address. -/
def cTaker : String := "0x1111111111111111111111111111111111111111"

/-- `cOrder` naming a specific (non-wildcard) taker. -/
def cOrderTaken : SignedOrder := { cOrder with taker := cTaker }

/-! ## Transaction-outcome resolver (`src/lib/OrderTransactionInfo.ts`) -/

/-- The event stream a log entry belongs to: `OrderFilledEvent`,
`OrderCancelledEvent` or `ErrorEvent`. -/
inductive EvKind where
  | fill
  | cancel
  | error
  deriving DecidableEq, Repr

/-- An event log entry as delivered by the contract's event streams:
`qty` is the `filledQty`/`cancelledQty` payload of fill/cancel events,
`errorCode` the payload of error events. -/
structure EventLog where
  kind : EvKind
  txHash : String
  maker : String
  qty : Int
  errorCode : Int
  deriving DecidableEq, Repr

/-- `OrderTransactionInfo._watchForError`
(`src/lib/OrderTransactionInfo.ts`, lines 183–211): the switch on
`eventLog.args.errorCode.toString()` against `ORDER_EXPIRED_CODE = '0'` and
`ORDER_DEAD_CODE = '1'` (embedded as integer comparison). -/
def errorCodeToKindTxInfo (code : Int) : MarketError :=
  if code == 0 then .orderExpired
  else if code == 1 then .orderDead
  else .unknownOrderError

/-- `OrderInfo._watchForError` (`src/lib/Order.ts`, lines 310–338): the same
switch, duplicated in the `OrderInfo` class. -/
def errorCodeToKindOrderInfo (code : Int) : MarketError :=
  if code == 0 then .orderExpired
  else if code == 1 then .orderDead
  else .unknownOrderError

/-- Does a live event reach the primary watcher of an accessor and match the
resolver's transaction?  The primary watcher is opened with the filter
`{ maker: this._order.maker }` on the fill (resp. cancel) event stream, and
its callback fires only on `eventLog.transactionHash === this.txHash`. -/
def matchesPrimary (k : EvKind) (makerAddr txHash : String) (e : EventLog) : Bool :=
  e.kind == k && e.maker == makerAddr && e.txHash == txHash

/-- Does a live event reach the error watcher (`ErrorEvent({})`, unfiltered)
and match the resolver's transaction? -/
def matchesError (txHash : String) (e : EventLog) : Bool :=
  e.kind == .error && e.txHash == txHash

/-- The completed race between the live primary watcher and the live error
watcher: scans the arriving events in order; the first event that triggers
either callback settles the race.  Returns the settlement outcome together
with the liveness of (fill-or-cancel watcher, error watcher) at the moment
of settlement; `none` if no matching event ever arrives.

* A matching primary event stops the primary watcher (the callback calls the
  `stopWatcher` local it rebound) and resolves; the error watcher is never
  stopped on this path.
* A matching error event stops the error watcher, then rejects with the
  mapped `MarketError`; the accessor's `catch` block then awaits its
  `stopEventWatcher` variable, which is still the initial no-op — the
  callee `_fetchOrWatchForFilledQty` only reassigned its own `stopWatcher`
  parameter, which cannot rebind the caller's variable — so the primary
  watcher stays live. -/
def raceLive (k : EvKind) (makerAddr txHash : String) :
    List EventLog → Option (Except MarketError Int × Bool × Bool)
  | [] => none
  | e :: rest =>
    if matchesPrimary k makerAddr txHash e then
      some (.ok e.qty, false, true)
    else if matchesError txHash e then
      some (.error (errorCodeToKindTxInfo e.errorCode), true, false)
    else raceLive k makerAddr txHash rest

/-- The observable outcome of one accessor invocation
(`filledQtyAsync`/`cancelledQtyAsync`): how the promise settled (`none` if
it never settles), which live subscriptions the invocation opened, and
which were still live when the promise settled. -/
structure AccessorOutcome where
  result : Option (Except MarketError Int)
  primaryWatcherOpened : Bool
  primaryWatcherLiveAtSettle : Bool
  errorWatcherOpened : Bool
  errorWatcherLiveAtSettle : Bool
  deriving Repr

/-- One invocation of an accessor of `OrderTransactionInfo`
(`filledQtyAsync` with `k = .fill`, `cancelledQtyAsync` with `k = .cancel`;
lines 55–95 together with `_fetchOrWatchForFilledQty` /
`_fetchOrWatchForCancelledQty` and `_watchForError`), run against the
historical logs `hist` and the stream `live` of later event arrivals:

* `Promise.race` evaluates both branches, so `_watchForError` always opens
  the error watcher;
* the primary branch first queries historical logs (the `get` on the
  event filtered by this order's maker) and resolves immediately on a log
  whose `transactionHash` equals `txHash`, without opening the primary
  watcher — but nothing stops the already-opened error watcher;
* otherwise it opens the primary watcher and the race of `raceLive`
  decides the outcome. -/
def runAccessor (k : EvKind) (makerAddr txHash : String)
    (hist live : List EventLog) : AccessorOutcome :=
  let histLogs := hist.filter (fun e => e.kind == k && e.maker == makerAddr)
  match histLogs.find? (fun e => e.txHash == txHash) with
  | some e =>
      { result := some (.ok e.qty)
        primaryWatcherOpened := false
        primaryWatcherLiveAtSettle := false
        errorWatcherOpened := true
        errorWatcherLiveAtSettle := true }
  | none =>
      match raceLive k makerAddr txHash live with
      | some (r, pLive, eLive) =>
          { result := some r
            primaryWatcherOpened := true
            primaryWatcherLiveAtSettle := pLive
            errorWatcherOpened := true
            errorWatcherLiveAtSettle := eLive }
      | none =>
          { result := none
            primaryWatcherOpened := true
            primaryWatcherLiveAtSettle := true
            errorWatcherOpened := true
            errorWatcherLiveAtSettle := true }

/-- `OrderTransactionInfo.filledQtyAsync` for an order with the given maker. -/
def runFilledQty (makerAddr txHash : String) (hist live : List EventLog) : AccessorOutcome :=
  runAccessor .fill makerAddr txHash hist live

/-- `OrderTransactionInfo.cancelledQtyAsync` for an order with the given maker. -/
def runCancelledQty (makerAddr txHash : String) (hist live : List EventLog) : AccessorOutcome :=
  runAccessor .cancel makerAddr txHash hist live

/-- A concrete transaction hash for resolver scenarios. -/
def cTxHash : String := "0xtxhash"

/-- A live error event with code `0` for `cTxHash`. -/
def cErrorEvent : EventLog :=
  { kind := .error, txHash := cTxHash, maker := "0xmaker", qty := 0, errorCode := 0 }

/-- A historical fill event of quantity `7` for `cTxHash` by `0xmaker`. -/
def cFillEvent : EventLog :=
  { kind := .fill, txHash := cTxHash, maker := "0xmaker", qty := 7, errorCode := 0 }

/-! ## Contract-binding cache
(`ContractWrapper._getContractSetByMarketContractAddressAsync`) -/

/-- A `ContractSet` binding triple.  `id` records allocation identity: each
construction by
`createNewMarketContractSetFromMarketContractAddressAsync` allocates a
fresh `id`, so two bindings are the identical object exactly when their
`id`s agree. -/
structure ContractSet where
  id : Nat
  marketAddress : String
  poolAddress : String
  tokenAddress : String
  deriving DecidableEq, Repr

/-- The remote configuration the cache reads on a miss: each market
contract's `MARKET_COLLATERAL_POOL_ADDRESS` and
`COLLATERAL_TOKEN_ADDRESS`. -/
structure ChainConfig where
  poolAddrOf : String → String
  tokenAddrOf : String → String

/-- The mutable cache state of `ContractWrapper`: the map keyed by
lower-cased market-contract address, the reverse map keyed by the pool
address, and the allocation counter.  The maps are association lists where
a newly stored binding is consed at the head (JavaScript object assignment:
the most recent binding for a key wins). -/
structure CacheState where
  byMarket : List (String × ContractSet)
  byPool : List (String × ContractSet)
  nextId : Nat
  deriving Repr

/-- The empty cache, as initialized by the `ContractWrapper` constructor. -/
def CacheState.empty : CacheState := ⟨[], [], 0⟩

/-- `ContractWrapper._getContractSetByMarketContractAddressAsync`
(`src/contract_wrappers/ContractWrapper.ts`, lines 618–658): look up the
lower-cased address; on a hit return the cached set unchanged; on a miss
construct a new set (reading the pool and token addresses from the chain)
and register it under both the normalized market address and the pool's
address. -/
def getContractSet (cfg : ChainConfig) (addr : String) (st : CacheState) :
    ContractSet × CacheState :=
  let norm := addr.toLower
  match st.byMarket.lookup norm with
  | some cs => (cs, st)
  | none =>
      let cs : ContractSet :=
        { id := st.nextId
          marketAddress := addr
          poolAddress := cfg.poolAddrOf addr
          tokenAddress := cfg.tokenAddrOf addr }
      (cs,
       { byMarket := (norm, cs) :: st.byMarket
         byPool := (cs.poolAddress, cs) :: st.byPool
         nextId := st.nextId + 1 })

/-- A sequence of cache accesses, returning the final state. -/
def runGets (cfg : ChainConfig) : List String → CacheState → CacheState
  | [], st => st
  | a :: rest, st => runGets cfg rest (getContractSet cfg a st).2

/-! ## Expiration scheduler

Modelled from the spec: `src/order_watcher/ExpirationWatcher.ts` is not
among the sources (only its test suite is), so the scheduler is embedded
from specification §4.1: entries are kept ordered ascending by expiration
instant with ties broken by insertion order; at most one timer is armed,
always for the earliest entry; on fire every entry whose instant is `≤ now`
is popped and emitted in ascending order and the timer is re-armed for the
new earliest remaining entry, if any. -/

/-- An entry of the expiration scheduler: an order identifier and its
expiration instant in milliseconds. -/
structure ExpEntry where
  ident : String
  expirationMs : Int
  deriving DecidableEq, Repr

/-- The scheduler's state: the time-ordered entries and the instant the
single timer is armed for (`none` when no entry is pending). -/
structure Scheduler where
  entries : List ExpEntry
  timer : Option Int
  deriving DecidableEq, Repr

/-- A fresh scheduler. -/
def Scheduler.fresh : Scheduler := ⟨[], none⟩

/-- Stable ordered insertion: the new entry is placed after every existing
entry whose expiration is not later (ties keep insertion order). -/
def insertEntry (e : ExpEntry) : List ExpEntry → List ExpEntry
  | [] => [e]
  | x :: xs =>
    if x.expirationMs ≤ e.expirationMs then x :: insertEntry e xs
    else e :: x :: xs

/-- Modelled from the spec: `ExpirationWatcher.addOrder(identifier,
expirationInstantMs)` inserts the entry in expiration order and re-arms the
single timer for the earliest pending entry. -/
def Scheduler.addOrder (s : Scheduler) (ident : String) (expirationMs : Int) : Scheduler :=
  let entries := insertEntry ⟨ident, expirationMs⟩ s.entries
  { entries := entries, timer := entries.head?.map (·.expirationMs) }

/-- Modelled from the spec: the timer firing at instant `now` pops and
emits, in ascending order, every entry whose expiration instant is `≤ now`,
then re-arms for the new earliest remaining entry if any.  Returns the
emitted identifiers in emission order and the new state. -/
def Scheduler.fire (s : Scheduler) (now : Int) : List String × Scheduler :=
  let expired := s.entries.takeWhile (fun e => e.expirationMs ≤ now)
  let rest := s.entries.dropWhile (fun e => e.expirationMs ≤ now)
  (expired.map (·.ident), { entries := rest, timer := rest.head?.map (·.expirationMs) })

/-- Entries sorted ascending by expiration instant. -/
def entriesSorted (l : List ExpEntry) : Prop :=
  l.Sorted (fun a b => a.expirationMs ≤ b.expirationMs)

/-- A concrete chain configuration for cache scenarios. -/
def cCfg : ChainConfig := ⟨fun _ => "0xpool", fun _ => "0xtoken"⟩

/-- A concrete scheduler holding two entries in ascending expiration order,
timer armed for the earliest. -/
def cSched : Scheduler := ⟨[⟨"0xhash1", 10⟩, ⟨"0xhash2", 20⟩], some 10⟩

/-! ## Theorems -/

/-- A passing check is skipped by `firstFailure`. -/
theorem firstFailure_cons_pass (b : Bool) (e : MarketError)
    (rest : List (Bool × MarketError)) (hb : b = true) :
    firstFailure ((b, e) :: rest) = firstFailure rest := by
  simp [firstFailure, hb]

/-- The first failing check's error is one of the checklist's errors. -/
theorem firstFailure_mem_snd (l : List (Bool × MarketError)) (e : MarketError)
    (h : firstFailure l = some e) : e ∈ l.map Prod.snd := by
  induction l with
  | nil => simp [firstFailure] at h
  | cons x xs ih =>
    rcases x with ⟨b, e2⟩
    by_cases hb : b = true
    · rw [firstFailure_cons_pass _ _ _ hb] at h
      exact List.mem_cons_of_mem _ (ih h)
    · rw [Bool.not_eq_true] at hb
      simp only [firstFailure, hb, Bool.false_eq_true, if_false,
        Option.some.injEq] at h
      subst h
      exact List.mem_cons_self _ _

/-- Central helper: the transcription of `tradeOrderAsync` agrees with the
ordered fail-fast checklist, evaluates exactly the passing prefix of
checks plus the first failing one, and submits exactly when every check
passes. -/
theorem tradeOrderRun_spec (env : MarketEnv) (o : SignedOrder)
    (q : Int) (f : Option String) :
    ((tradeOrderRun env o q f).2 =
      (match firstFailure (tradeChecks env o q f) with
        | some e => Except.error e
        | none => Except.ok ⟨o, q⟩))
    ∧ ((tradeOrderRun env o q f).1.filter TradeStep.isCheck
        = evaluatedChecks (tradeChecks env o q f) checkStepOrder)
    ∧ (TradeStep.submitTrade ∈ (tradeOrderRun env o q f).1
        ↔ firstFailure (tradeChecks env o q f) = none) := by
  cases h1 : env.isSettled
  case true =>
    simp [tradeOrderRun, tradeChecks, firstFailure, evaluatedChecks,
      checkStepOrder, TradeStep.isCheck, h1]
  case false =>
  cases h2 : (o.taker != NULL_ADDRESS && o.taker != takerOf f)
  case true =>
    simp [tradeOrderRun, tradeChecks, firstFailure, evaluatedChecks,
      checkStepOrder, TradeStep.isCheck, h1, h2]
  case false =>
  cases h3 : decide (o.expirationTimestamp < env.now)
  case true =>
    simp [tradeOrderRun, tradeChecks, firstFailure, evaluatedChecks,
      checkStepOrder, TradeStep.isCheck, h1, h2, h3]
  case false =>
  cases h4 : (o.remainingQty == 0)
  case true =>
    simp [tradeOrderRun, tradeChecks, firstFailure, evaluatedChecks,
      checkStepOrder, TradeStep.isCheck, h1, h2, h3, h4]
  case false =>
  cases h5 : (bnIsPositive o.orderQty != bnIsPositive q)
  case true =>
    simp [tradeOrderRun, tradeChecks, firstFailure, evaluatedChecks,
      checkStepOrder, TradeStep.isCheck, h1, h2, h3, h4, h5]
  case false =>
  cases h6 : env.validSignature
  case false =>
    simp [tradeOrderRun, tradeChecks, firstFailure, evaluatedChecks,
      checkStepOrder, TradeStep.isCheck, h1, h2, h3, h4, h5, h6]
  case true =>
  cases h7 : env.isUserEnabled o.maker
  case false =>
    simp [tradeOrderRun, tradeChecks, firstFailure, evaluatedChecks,
      checkStepOrder, TradeStep.isCheck, h1, h2, h3, h4, h5, h6, h7]
  case true =>
  cases h8 : env.isUserEnabled (takerOf f)
  case false =>
    simp [tradeOrderRun, tradeChecks, firstFailure, evaluatedChecks,
      checkStepOrder, TradeStep.isCheck, h1, h2, h3, h4, h5, h6, h7, h8]
  case true =>
  cases h9 : decide (env.mktBalanceOf o.maker < o.makerFee)
  case true =>
    simp [tradeOrderRun, tradeChecks, firstFailure, evaluatedChecks,
      checkStepOrder, TradeStep.isCheck, h1, h2, h3, h4, h5, h6, h7, h8, h9]
  case false =>
  cases h10 : decide (env.mktAllowance o.maker o.feeRecipient < o.makerFee)
  case true =>
    simp [tradeOrderRun, tradeChecks, firstFailure, evaluatedChecks,
      checkStepOrder, TradeStep.isCheck, h1, h2, h3, h4, h5, h6, h7, h8, h9,
      h10]
  case false =>
  cases h11 : decide (env.mktBalanceOf (takerOf f) < o.takerFee)
  case true =>
    simp [tradeOrderRun, tradeChecks, firstFailure, evaluatedChecks,
      checkStepOrder, TradeStep.isCheck, h1, h2, h3, h4, h5, h6, h7, h8, h9,
      h10, h11]
  case false =>
  cases h12 : decide (env.mktAllowance (takerOf f) o.feeRecipient < o.takerFee)
  case true =>
    simp [tradeOrderRun, tradeChecks, firstFailure, evaluatedChecks,
      checkStepOrder, TradeStep.isCheck, h1, h2, h3, h4, h5, h6, h7, h8, h9,
      h10, h11, h12]
  case false =>
  cases h13 : decide (env.collateralBalanceOf o.maker < neededCollateralMaker env o q)
  case true =>
    simp [tradeOrderRun, tradeChecks, firstFailure, evaluatedChecks,
      checkStepOrder, TradeStep.isCheck, h1, h2, h3, h4, h5, h6, h7, h8, h9,
      h10, h11, h12, h13]
  case false =>
  cases h14 : decide (env.collateralBalanceOf (takerOf f) < neededCollateralTaker env o q)
  case true =>
    simp [tradeOrderRun, tradeChecks, firstFailure, evaluatedChecks,
      checkStepOrder, TradeStep.isCheck, h1, h2, h3, h4, h5, h6, h7, h8, h9,
      h10, h11, h12, h13, h14]
  case false =>
    simp [tradeOrderRun, tradeChecks, firstFailure, evaluatedChecks,
      checkStepOrder, TradeStep.isCheck, h1, h2, h3, h4, h5, h6, h7, h8, h9,
      h10, h11, h12, h13, h14]

/-- C1: `tradeOrderAsync` runs its validation checks in exactly the
specified order; it rejects with the `MarketError` of the first failing
check of the ordered checklist, the checks it evaluates are exactly the
passing prefix plus the first failing check, and the trade is submitted
exactly when every check passes. -/
theorem tradeOrder_pipeline_fail_fast (env : MarketEnv) (o : SignedOrder)
    (q : Int) (f : Option String) :
    ((tradeOrderRun env o q f).2 =
      (match firstFailure (tradeChecks env o q f) with
        | some e => Except.error e
        | none => Except.ok ⟨o, q⟩))
    ∧ ((tradeOrderRun env o q f).1.filter TradeStep.isCheck
        = evaluatedChecks (tradeChecks env o q f) checkStepOrder)
    ∧ (TradeStep.submitTrade ∈ (tradeOrderRun env o q f).1
        ↔ firstFailure (tradeChecks env o q f) = none) :=
  tradeOrderRun_spec env o q f

/-- An event that matches the error watcher is an error event, so it never
matches a fill or cancel primary watcher. -/
theorem matchesPrimary_of_matchesError {k : EvKind} (hk : k ≠ EvKind.error)
    (makerAddr tx : String) (e : EventLog) (he : matchesError tx e = true) :
    matchesPrimary k makerAddr tx e = false := by
  have hkind : e.kind = EvKind.error := by
    simp only [matchesError, Bool.and_eq_true, beq_iff_eq] at he
    exact he.1
  cases k with
  | error => exact absurd rfl hk
  | fill => simp [matchesPrimary, hkind]
  | cancel => simp [matchesPrimary, hkind]

/-- Events matching neither watcher are skipped by the race. -/
theorem raceLive_append_skip (k : EvKind) (makerAddr tx : String)
    (pre rest : List EventLog)
    (hpre : ∀ x ∈ pre, matchesPrimary k makerAddr tx x = false
      ∧ matchesError tx x = false) :
    raceLive k makerAddr tx (pre ++ rest) = raceLive k makerAddr tx rest := by
  induction pre with
  | nil => rfl
  | cons x xs ih =>
    have hx := hpre x (List.mem_cons_self _ _)
    simp only [List.cons_append, raceLive, hx.1, hx.2, Bool.false_eq_true,
      if_false]
    exact ih fun y hy => hpre y (List.mem_cons_of_mem _ hy)

/-- A matching error event at the head of the stream settles the race: the
promise rejects with the mapped error kind, the error watcher has stopped
itself, and the primary watcher is still live. -/
theorem raceLive_error_first (k : EvKind) (makerAddr tx : String)
    (e : EventLog) (rest : List EventLog) (hk : k ≠ EvKind.error)
    (he : matchesError tx e = true) :
    raceLive k makerAddr tx (e :: rest)
      = some (.error (errorCodeToKindTxInfo e.errorCode), true, false) := by
  simp only [raceLive, matchesPrimary_of_matchesError hk makerAddr tx e he,
    Bool.false_eq_true, if_false, he, if_true]

/-- C5 counterexample: an order whose expiration instant equals the current
time is not rejected as expired — with every other check passing, the code
submits the trade (`expirationTimestamp.isLessThan(now)` is false at
equality). -/
theorem tradeOrder_expiry_boundary_counterexample :
    cOrder.expirationTimestamp = cEnv.now
    ∧ cEnv.isSettled = false
    ∧ cOrder.taker = NULL_ADDRESS
    ∧ (tradeOrderRun cEnv cOrder 2 (some cTaker)).2 = Except.ok ⟨cOrder, 2⟩ :=
  ⟨rfl, rfl, rfl, rfl⟩

set_option maxHeartbeats 1000000 in
/-- C5 amended: given the contract is not settled and the taker check
passes, `tradeOrderAsync` rejects with `OrderExpired` exactly when the
order's expiration instant is strictly earlier than the current time — the
order trades while `now ≤ expirationInstant`, so an order expiring exactly
now is accepted. -/
theorem tradeOrder_expiry_iff (env : MarketEnv) (o : SignedOrder) (q : Int)
    (f : Option String) (h1 : env.isSettled = false)
    (h2 : (o.taker != NULL_ADDRESS && o.taker != takerOf f) = false) :
    (tradeOrderRun env o q f).2 = Except.error MarketError.orderExpired
      ↔ o.expirationTimestamp < env.now := by
  have hspec := (tradeOrderRun_spec env o q f).1
  by_cases h3 : o.expirationTimestamp < env.now
  · have hf : firstFailure (tradeChecks env o q f)
        = some MarketError.orderExpired := by
      simp [tradeChecks, firstFailure, h1, h2, h3]
    rw [hspec, hf]
    simp [h3]
  · have hne : ∀ e, firstFailure (tradeChecks env o q f) = some e →
        e ≠ MarketError.orderExpired := by
      simp only [tradeChecks, firstFailure, h1, h2, h3, Bool.not_false,
        decide_eq_true_eq, eq_self_iff_true, if_true, decide_False,
        not_false_eq_true]
      split_ifs <;> intro e he <;>
        simp only [Option.some.injEq, reduceCtorEq] at he <;> subst he <;>
        decide
    rw [hspec]
    simp only [h3, iff_false]
    cases hcase : firstFailure (tradeChecks env o q f) with
    | none => simp
    | some e =>
      simp only [Except.error.injEq]
      exact hne e hcase

/-- C5 amended, witness: the amended statement at the boundary instance
(`expirationTimestamp = now = 1000`). -/
theorem tradeOrder_expiry_iff_witness :
    ((tradeOrderRun cEnv cOrder 2 (some cTaker)).2
        = Except.error MarketError.orderExpired
      ↔ cOrder.expirationTimestamp < cEnv.now) :=
  tradeOrder_expiry_iff cEnv cOrder 2 (some cTaker) rfl rfl

/-- C6: an order with `remainingQty = 0` that passed the settlement, taker
and expiration checks is rejected with `OrderFilledOrCancelled`; the
invocation performs exactly the steps up to that check — its only remote
calls are the contract-set fetch and the settlement read, and no trade is
submitted. -/
theorem tradeOrder_remaining_zero (env : MarketEnv) (o : SignedOrder) (q : Int)
    (f : Option String) (h1 : env.isSettled = false)
    (h2 : (o.taker != NULL_ADDRESS && o.taker != takerOf f) = false)
    (h3 : decide (o.expirationTimestamp < env.now) = false)
    (h4 : o.remainingQty = 0) :
    tradeOrderRun env o q f =
      ([.fetchContractSet, .readIsSettled, .checkSettled, .checkTaker,
        .checkExpiration, .checkRemainingQty],
       Except.error MarketError.orderFilledOrCancelled)
    ∧ (tradeOrderRun env o q f).1.filter TradeStep.isRemote
        = [.fetchContractSet, .readIsSettled] := by
  constructor
  · simp [tradeOrderRun, h1, h2, h3, h4]
  · simp [tradeOrderRun, h1, h2, h3, h4, TradeStep.isRemote]

/-- C6 witness: the zero-remaining order `cOrderFilled` in the concrete
environment. -/
theorem tradeOrder_remaining_zero_witness :
    (tradeOrderRun cEnv cOrderFilled 2 (some cTaker) =
      ([.fetchContractSet, .readIsSettled, .checkSettled, .checkTaker,
        .checkExpiration, .checkRemainingQty],
       Except.error MarketError.orderFilledOrCancelled)
    ∧ (tradeOrderRun cEnv cOrderFilled 2 (some cTaker)).1.filter TradeStep.isRemote
        = [.fetchContractSet, .readIsSettled]) :=
  tradeOrder_remaining_zero cEnv cOrderFilled 2 (some cTaker) rfl rfl rfl rfl

/-- C7: under `priceFloor ≤ price ≤ priceCap` and a positive multiplier,
the needed collateral is `quantityMultiplier × |quantity| × (price −
priceFloor)` for a buy and `quantityMultiplier × |quantity| × (priceCap −
price)` for a sell; and in the end-to-end scenario (floor `0`, cap
`200000`, multiplier `1`, price `100000`, fill `2`) both the maker's
collateral requirement and the taker's (sized inside the pipeline with the
opposite sign) equal `200000`. -/
theorem neededCollateral_formula (priceFloor priceCap qtyMultiplier q price : Int)
    (h1 : priceFloor ≤ price) (h2 : price ≤ priceCap) (h3 : 0 < qtyMultiplier) :
    (0 < q → calculateNeededCollateral priceFloor priceCap qtyMultiplier q price
        = qtyMultiplier * |q| * (price - priceFloor))
    ∧ (q < 0 → calculateNeededCollateral priceFloor priceCap qtyMultiplier q price
        = qtyMultiplier * |q| * (priceCap - price))
    ∧ neededCollateralMaker cEnv cOrder 2 = 200000
    ∧ neededCollateralTaker cEnv cOrder 2 = 200000 := by
  refine ⟨fun hq => ?_, fun hq => ?_, by decide, by decide⟩
  · simp [calculateNeededCollateral, hq]
  · simp [calculateNeededCollateral, not_lt.mpr hq.le]

/-- C7 witness: the formula instantiated at the end-to-end scenario's
bounds. -/
theorem neededCollateral_formula_witness :
    ((0:Int) ≤ 100000 ∧ (100000:Int) ≤ 200000 ∧ (0:Int) < 1)
    ∧ ((0 < (2:Int) → calculateNeededCollateral 0 200000 1 2 100000
          = 1 * |(2:Int)| * (100000 - 0))
      ∧ ((2:Int) < 0 → calculateNeededCollateral 0 200000 1 2 100000
          = 1 * |(2:Int)| * (200000 - 100000))
      ∧ neededCollateralMaker cEnv cOrder 2 = 200000
      ∧ neededCollateralTaker cEnv cOrder 2 = 200000) :=
  ⟨⟨by decide, by decide, by decide⟩,
    neededCollateral_formula 0 200000 1 2 100000 (by decide) (by decide) (by decide)⟩

set_option maxHeartbeats 1000000 in
/-- C10: when `txParams.from` is absent the sender defaults to the all-zero
null address — the run is identical to one with the null address as
explicit sender; if the order names a specific non-null taker the call is
rejected with `InvalidTaker`, and if the order's taker is the wildcard the
pipeline does not reject the taker and proceeds with the null address. -/
theorem tradeOrder_default_sender (env : MarketEnv) (o : SignedOrder) (q : Int) :
    tradeOrderRun env o q none = tradeOrderRun env o q (some NULL_ADDRESS)
    ∧ (env.isSettled = false → o.taker ≠ NULL_ADDRESS →
        (tradeOrderRun env o q none).2 = Except.error MarketError.invalidTaker)
    ∧ (env.isSettled = false → o.taker = NULL_ADDRESS →
        ∀ e, (tradeOrderRun env o q none).2 = Except.error e →
          e ≠ MarketError.invalidTaker) := by
  refine ⟨rfl, fun h1 h2 => ?_, fun h1 h2 e he => ?_⟩
  · have hf : firstFailure (tradeChecks env o q none)
        = some MarketError.invalidTaker := by
      simp [tradeChecks, firstFailure, takerOf, h1, h2]
    rw [(tradeOrderRun_spec env o q none).1, hf]
  · have hne : ∀ e2, firstFailure (tradeChecks env o q none) = some e2 →
        e2 ≠ MarketError.invalidTaker := by
      clear he e
      intro e2 hsome hcontra
      subst hcontra
      simp only [tradeChecks] at hsome
      rw [firstFailure_cons_pass _ _ _ (by simp [h1])] at hsome
      rw [firstFailure_cons_pass _ _ _ (by simp [takerOf, h2])] at hsome
      have hmem := firstFailure_mem_snd _ _ hsome
      simp at hmem
    rw [(tradeOrderRun_spec env o q none).1] at he
    cases hcase : firstFailure (tradeChecks env o q none) with
    | none => rw [hcase] at he; exact absurd he (by simp)
    | some e2 =>
      rw [hcase] at he
      simp only [Except.error.injEq] at he
      rw [← he]
      exact hne e2 hcase

/-- C10 witness: with `txParams.from` absent, the order naming taker
`cTaker` is rejected with `InvalidTaker`, and the wildcard order's run is
identical to a run with the null address as explicit sender. -/
theorem tradeOrder_default_sender_witness :
    (tradeOrderRun cEnv cOrderTaken 2 none).2 = Except.error MarketError.invalidTaker
    ∧ tradeOrderRun cEnv cOrder 2 none = tradeOrderRun cEnv cOrder 2 (some NULL_ADDRESS) :=
  ⟨(tradeOrder_default_sender cEnv cOrderTaken 2).2.1 rfl (by decide),
   (tradeOrder_default_sender cEnv cOrder 2).1⟩

/-- C2 (code defect): an accessor can settle with a live subscription still
open.  On the failure path (no historical fill, a live error event with
code `0`), `filledQtyAsync` rejects with `OrderExpired` while its
fill-event watcher is still live — the `await stopEventWatcher()` cleanup
runs the initial no-op, because `_fetchOrWatchForFilledQty` only reassigned
its own parameter.  On the history-hit success path the accessor resolves
while the error watcher opened by the racing error branch is still live. -/
theorem accessor_settles_with_live_subscription :
    ((runFilledQty "0xmaker" cTxHash [] [cErrorEvent]).result
        = some (Except.error MarketError.orderExpired)
      ∧ (runFilledQty "0xmaker" cTxHash [] [cErrorEvent]).primaryWatcherOpened = true
      ∧ (runFilledQty "0xmaker" cTxHash [] [cErrorEvent]).primaryWatcherLiveAtSettle = true)
    ∧ ((runFilledQty "0xmaker" cTxHash [cFillEvent] []).result
        = some (Except.ok 7)
      ∧ (runFilledQty "0xmaker" cTxHash [cFillEvent] []).errorWatcherOpened = true
      ∧ (runFilledQty "0xmaker" cTxHash [cFillEvent] []).errorWatcherLiveAtSettle = true) :=
  ⟨⟨rfl, rfl, rfl⟩, ⟨rfl, rfl, rfl⟩⟩

/-- C3 counterexample: with the filled event already in the historical
logs, `filledQtyAsync` resolves with its quantity but the invocation does
open a live subscription — the racing error branch's error-event watcher. -/
theorem filledQty_history_hit_counterexample :
    (runFilledQty "0xmaker" cTxHash [cFillEvent] []).result
        = some (Except.ok 7)
    ∧ (runFilledQty "0xmaker" cTxHash [cFillEvent] []).errorWatcherOpened = true :=
  ⟨rfl, rfl⟩

/-- C3 amended: if the historical query already contains a filled event for
the resolver's transaction hash, the accessor resolves with that (first
such) event's filled quantity and never opens the live fill-event watcher;
the error-event watcher is nevertheless opened by the racing error branch
(and is still live at settlement). -/
theorem filledQty_history_hit (makerAddr tx : String)
    (hist live : List EventLog) (e : EventLog)
    (hfind : (hist.filter (fun x => x.kind == EvKind.fill && x.maker == makerAddr)).find?
        (fun x => x.txHash == tx) = some e) :
    (runFilledQty makerAddr tx hist live).result = some (Except.ok e.qty)
    ∧ (runFilledQty makerAddr tx hist live).primaryWatcherOpened = false
    ∧ (runFilledQty makerAddr tx hist live).errorWatcherOpened = true
    ∧ (runFilledQty makerAddr tx hist live).errorWatcherLiveAtSettle = true := by
  simp [runFilledQty, runAccessor, hfind]

/-- C3 amended, witness: the concrete history-hit run. -/
theorem filledQty_history_hit_witness :
    ((runFilledQty "0xmaker" cTxHash [cFillEvent] []).result
        = some (Except.ok cFillEvent.qty)
    ∧ (runFilledQty "0xmaker" cTxHash [cFillEvent] []).primaryWatcherOpened = false
    ∧ (runFilledQty "0xmaker" cTxHash [cFillEvent] []).errorWatcherOpened = true
    ∧ (runFilledQty "0xmaker" cTxHash [cFillEvent] []).errorWatcherLiveAtSettle = true) :=
  filledQty_history_hit "0xmaker" cTxHash [cFillEvent] [] cFillEvent rfl

/-- C4: the error-code mapping is the same pure function at both duplicated
call sites (`OrderTransactionInfo._watchForError` and
`OrderInfo._watchForError`); it sends code `0` to `OrderExpired`, code `1`
to `OrderDead`, and every other code to `UnknownOrderError`; and whenever a
matching error event settles the race (no historical hit, no earlier
matching event), both the filled and the cancelled accessor reject with
exactly the kind this mapping assigns to the event's code. -/
theorem errorEvent_code_mapping :
    (∀ c, errorCodeToKindTxInfo c = errorCodeToKindOrderInfo c)
    ∧ errorCodeToKindTxInfo 0 = MarketError.orderExpired
    ∧ errorCodeToKindTxInfo 1 = MarketError.orderDead
    ∧ (∀ c, c ≠ 0 → c ≠ 1 → errorCodeToKindTxInfo c = MarketError.unknownOrderError)
    ∧ (∀ makerAddr tx hist pre e post,
        ((hist.filter (fun x => x.kind == EvKind.fill && x.maker == makerAddr)).find?
            (fun x => x.txHash == tx) = none) →
        ((hist.filter (fun x => x.kind == EvKind.cancel && x.maker == makerAddr)).find?
            (fun x => x.txHash == tx) = none) →
        (∀ x ∈ pre, matchesPrimary EvKind.fill makerAddr tx x = false
            ∧ matchesPrimary EvKind.cancel makerAddr tx x = false
            ∧ matchesError tx x = false) →
        matchesError tx e = true →
        (runFilledQty makerAddr tx hist (pre ++ e :: post)).result
            = some (Except.error (errorCodeToKindTxInfo e.errorCode))
        ∧ (runCancelledQty makerAddr tx hist (pre ++ e :: post)).result
            = some (Except.error (errorCodeToKindTxInfo e.errorCode))) := by
  refine ⟨fun c => rfl, rfl, rfl, fun c hc0 hc1 => ?_,
    fun makerAddr tx hist pre e post hf hc hpre he => ⟨?_, ?_⟩⟩
  · simp [errorCodeToKindTxInfo, hc0, hc1]
  · simp only [runFilledQty, runAccessor, hf]
    rw [raceLive_append_skip _ _ _ _ _
      (fun x hx => ⟨(hpre x hx).1, (hpre x hx).2.2⟩)]
    rw [raceLive_error_first _ _ _ _ _ (fun h => EvKind.noConfusion h) he]
  · simp only [runCancelledQty, runAccessor, hc]
    rw [raceLive_append_skip _ _ _ _ _
      (fun x hx => ⟨(hpre x hx).2.1, (hpre x hx).2.2⟩)]
    rw [raceLive_error_first _ _ _ _ _ (fun h => EvKind.noConfusion h) he]

/-- C4 witness: the mapping and both accessors at the concrete error event
with code `0`. -/
theorem errorEvent_code_mapping_witness :
    ((runFilledQty "0xmaker" cTxHash [] [cErrorEvent]).result
        = some (Except.error (errorCodeToKindTxInfo cErrorEvent.errorCode))
    ∧ (runCancelledQty "0xmaker" cTxHash [] [cErrorEvent]).result
        = some (Except.error (errorCodeToKindTxInfo cErrorEvent.errorCode))) :=
  errorEvent_code_mapping.2.2.2.2 "0xmaker" cTxHash [] [] cErrorEvent []
    rfl rfl (by simp) rfl

/-- A single cache access preserves every existing binding of the
by-market map. -/
theorem getContractSet_preserves_byMarket (cfg : ChainConfig) (addr : String)
    (st : CacheState) (key : String) (cs : ContractSet)
    (h : st.byMarket.lookup key = some cs) :
    (getContractSet cfg addr st).2.byMarket.lookup key = some cs := by
  unfold getContractSet
  cases hl : st.byMarket.lookup addr.toLower with
  | some c => simp only [hl]; exact h
  | none =>
    by_cases hk : key = addr.toLower
    · rw [hk, hl] at h; cases h
    · have hkb : (key == addr.toLower) = false := beq_eq_false_iff_ne.mpr hk
      simp only [hl, List.lookup, hkb]
      exact h

/-- A sequence of cache accesses preserves every existing binding of the
by-market map. -/
theorem runGets_preserves_byMarket (cfg : ChainConfig) (ops : List String)
    (st : CacheState) (key : String) (cs : ContractSet)
    (h : st.byMarket.lookup key = some cs) :
    (runGets cfg ops st).byMarket.lookup key = some cs := by
  induction ops generalizing st with
  | nil => exact h
  | cons a rest ih =>
    exact ih _ (getContractSet_preserves_byMarket cfg a st key cs h)

/-- C8: the binding cache is append-only.  A lookup for a cached address
returns the identical cached object and leaves the state (including the
allocation counter) untouched; the first construction for an address
registers the freshly allocated binding under both the normalized market
address and its collateral pool's address; and a binding, once present, is
still returned unchanged after any further sequence of cache accesses — so
a triple is constructed at most once per address for the process
lifetime. -/
theorem contractSet_cache_append_only (cfg : ChainConfig) :
    (∀ addr st cs, st.byMarket.lookup addr.toLower = some cs →
        getContractSet cfg addr st = (cs, st))
    ∧ (∀ addr st, st.byMarket.lookup addr.toLower = none →
        (getContractSet cfg addr st).1.id = st.nextId
        ∧ (getContractSet cfg addr st).2.nextId = st.nextId + 1
        ∧ (getContractSet cfg addr st).2.byMarket.lookup addr.toLower
            = some (getContractSet cfg addr st).1
        ∧ (getContractSet cfg addr st).2.byPool.lookup
              (getContractSet cfg addr st).1.poolAddress
            = some (getContractSet cfg addr st).1)
    ∧ (∀ ops st key cs, st.byMarket.lookup key = some cs →
        (runGets cfg ops st).byMarket.lookup key = some cs) := by
  refine ⟨fun addr st cs h => ?_, fun addr st h => ?_,
    fun ops st key cs h => runGets_preserves_byMarket cfg ops st key cs h⟩
  · simp [getContractSet, h]
  · refine ⟨?_, ?_, ?_, ?_⟩ <;> simp [getContractSet, h, List.lookup]

/-- C8 witness: a binding first constructed for address `"0xa"` is still
returned, identically, after further accesses for `"0xa"` and `"0xb"`. -/
theorem contractSet_cache_append_only_witness :
    (getContractSet cCfg "0xa" CacheState.empty
        = ((getContractSet cCfg "0xa" CacheState.empty).1,
           (getContractSet cCfg "0xa" CacheState.empty).2))
    ∧ ((getContractSet cCfg "0xa" CacheState.empty).2.byMarket.lookup "0xa".toLower
        = some (getContractSet cCfg "0xa" CacheState.empty).1)
    ∧ ((runGets cCfg ["0xa", "0xb"]
          (getContractSet cCfg "0xa" CacheState.empty).2).byMarket.lookup "0xa".toLower
        = some (getContractSet cCfg "0xa" CacheState.empty).1) := by
  refine ⟨rfl, ?_, ?_⟩
  · exact ((contractSet_cache_append_only cCfg).2.1 "0xa" CacheState.empty rfl).2.2.1
  · exact (contractSet_cache_append_only cCfg).2.2 ["0xa", "0xb"] _ "0xa".toLower _
      ((contractSet_cache_append_only cCfg).2.1 "0xa" CacheState.empty rfl).2.2.1

/-- Membership in a stable insertion. -/
theorem mem_insertEntry (b e : ExpEntry) (l : List ExpEntry) :
    b ∈ insertEntry e l ↔ b = e ∨ b ∈ l := by
  induction l with
  | nil => simp [insertEntry]
  | cons x xs ih =>
    by_cases hle : x.expirationMs ≤ e.expirationMs
    · rw [insertEntry, if_pos hle]
      simp only [List.mem_cons, ih]
      tauto
    · rw [insertEntry, if_neg hle]
      simp only [List.mem_cons]

/-- Stable insertion preserves ascending order of entries. -/
theorem insertEntry_sorted (e : ExpEntry) (l : List ExpEntry)
    (hs : entriesSorted l) : entriesSorted (insertEntry e l) := by
  induction l with
  | nil => simp [insertEntry, entriesSorted]
  | cons x xs ih =>
    rw [entriesSorted, List.sorted_cons] at hs
    rw [insertEntry]
    split_ifs with hle
    · rw [entriesSorted, List.sorted_cons]
      refine ⟨fun b hb => ?_, ih hs.2⟩
      rcases (mem_insertEntry b e xs).mp hb with rfl | hbx
      · exact hle
      · exact hs.1 b hbx
    · rw [entriesSorted, List.sorted_cons]
      refine ⟨fun b hb => ?_, List.sorted_cons.mpr hs⟩
      rcases List.mem_cons.mp hb with rfl | hbx
      · exact (not_le.mp hle).le
      · exact le_trans (not_le.mp hle).le (hs.1 b hbx)

/-- On a sorted entry list the timer-fire scan pops exactly the expired
prefix: the popped prefix is the set of entries with instant `≤ now` and
the remainder is the set with instant `> now`. -/
theorem fire_take_drop (now : Int) (l : List ExpEntry) (hs : entriesSorted l) :
    l.takeWhile (fun e => decide (e.expirationMs ≤ now))
      = l.filter (fun e => decide (e.expirationMs ≤ now))
    ∧ l.dropWhile (fun e => decide (e.expirationMs ≤ now))
      = l.filter (fun e => decide (now < e.expirationMs)) := by
  induction l with
  | nil => exact ⟨rfl, rfl⟩
  | cons x xs ih =>
    rw [entriesSorted, List.sorted_cons] at hs
    by_cases hx : x.expirationMs ≤ now
    · constructor
      · rw [List.takeWhile_cons, List.filter_cons]
        simp [hx, (ih hs.2).1]
      · rw [List.dropWhile_cons, List.filter_cons]
        simp [hx, not_lt.mpr hx, (ih hs.2).2]
    · have hall : ∀ y ∈ xs, now < y.expirationMs :=
        fun y hy => lt_of_lt_of_le (not_le.mp hx) (hs.1 y hy)
      constructor
      · rw [List.takeWhile_cons, List.filter_cons]
        simp only [hx, decide_False, Bool.false_eq_true, if_false]
        symm
        rw [List.filter_eq_nil]
        intro a ha
        simp [not_le.mpr (hall a ha)]
      · have h1 : (decide (x.expirationMs ≤ now)) = false := by simp [hx]
        have h2 : (decide (now < x.expirationMs)) = true := by
          simp [not_le.mp hx]
        simp only [List.dropWhile_cons, List.filter_cons, h1, h2,
          Bool.false_eq_true, if_false, eq_self_iff_true, if_true]
        refine congrArg (List.cons x) ?_
        symm
        rw [List.filter_eq_self]
        intro a ha
        simp [hall a ha]

/-- C9: entries emit in expiration order regardless of insertion order —
two entries added to a fresh scheduler out of order are emitted earliest
first on a fire that covers both; and in general a fire at instant `now`
on a sorted scheduler pops and emits, in ascending order, exactly the
entries with instant `≤ now`, keeps exactly those with instant `> now`,
and re-arms the timer for the new earliest remaining entry if any. -/
theorem scheduler_emits_in_order :
    (∀ a b : ExpEntry, a.expirationMs < b.expirationMs →
      ∀ now, b.expirationMs ≤ now →
      (((Scheduler.fresh.addOrder b.ident b.expirationMs).addOrder
          a.ident a.expirationMs).fire now).1 = [a.ident, b.ident])
    ∧ (∀ s : Scheduler, entriesSorted s.entries → ∀ now,
        (s.fire now).1
            = (s.entries.filter (fun e => decide (e.expirationMs ≤ now))).map (·.ident)
        ∧ (s.fire now).2.entries
            = s.entries.filter (fun e => decide (now < e.expirationMs))
        ∧ (s.fire now).2.timer
            = ((s.fire now).2.entries.head?).map (·.expirationMs)) := by
  constructor
  · intro a b hab now hnow
    have h1 : ¬ (b.expirationMs ≤ a.expirationMs) := not_le.mpr hab
    have h2 : a.expirationMs ≤ now := le_trans hab.le hnow
    simp [Scheduler.fresh, Scheduler.addOrder, Scheduler.fire, insertEntry,
      h1, h2, hnow]
  · intro s hs now
    exact ⟨congrArg (List.map _) (fire_take_drop now s.entries hs).1,
      (fire_take_drop now s.entries hs).2, rfl⟩

/-- C9 witness: two out-of-order insertions into a fresh scheduler emit in
expiration order, and a fire on the concrete sorted scheduler pops exactly
the expired entries. -/
theorem scheduler_emits_in_order_witness :
    ((((Scheduler.fresh.addOrder "0xhash2" 20).addOrder "0xhash1" 10).fire 25).1
        = ["0xhash1", "0xhash2"])
    ∧ ((cSched.fire 15).1
          = (cSched.entries.filter (fun e => decide (e.expirationMs ≤ 15))).map (·.ident)
      ∧ (cSched.fire 15).2.entries
          = cSched.entries.filter (fun e => decide (15 < e.expirationMs))
      ∧ (cSched.fire 15).2.timer
          = ((cSched.fire 15).2.entries.head?).map (·.expirationMs)) :=
  ⟨scheduler_emits_in_order.1 ⟨"0xhash1", 10⟩ ⟨"0xhash2", 20⟩ (by decide) 25 (by decide),
   scheduler_emits_in_order.2 cSched (by rw [entriesSorted]; decide) 15⟩

end MarketJs
